import Mathlib

/-!
Verification of the caller-attribution resolver library.

Shallow embedding of `caller_resolver.py` (`resolve_caller_module`,
`resolve_caller_filename`), the legacy resolver `aaa` of
`caller_resolver_bak.py`, and the record-enrichment adapter
`CallerInfoFilter.filter` of `logkit/filters.py`.

Modelling conventions:
  * A stack is a `List FrameRead`, innermost frame first (the element at
    index 0 plays the role of the frame returned by
    `inspect.currentframe()`); reading a frame's module name or file path
    may fault, which `FrameRead.fault` represents.
  * The Python sets of exclusion patterns / prefixes are modelled as
    `List String` (membership tests via `any` are order-insensitive, as
    for a set).
  * The `MISSING` sentinel return value is modelled as `none : Option
    String`; a returned string `s` is `some s`.  An exception escaping a
    resolver is `Except.error ()`.
  * `sys.argv` is a `List String`; "unavailable" is the empty list
    (both make `if sys.argv:` falsy).
-/

deriving instance DecidableEq for Except

/-- Reading an attribute of a stack frame either yields a string or
faults (raises). -/
inductive FrameRead where
  | ok (s : String)
  | fault
deriving DecidableEq, Repr

/-- Auxiliary: does `pat` occur contiguously inside `l`? -/
def hasInfix (pat : List Char) : List Char → Bool
  | [] => pat.isEmpty
  | x :: xs => pat.isPrefixOf (x :: xs) || hasInfix pat xs

/-- Python `pattern in path` substring containment test. -/
def substrIn (pat s : String) : Bool :=
  hasInfix pat.toList s.toList

/-- Python `str.lower()` (ASCII case folding, as all paths involved are
ASCII). -/
def strLower (s : String) : String :=
  ⟨s.toList.map Char.toLower⟩

/-- Python `module_name.startswith(p)`. -/
def strStartsWith (s p : String) : Bool :=
  p.toList.isPrefixOf s.toList

/-- Python `Path(p).name`: the final path component, after dropping trailing
(and empty) components. -/
def splitOnChar (c : Char) : List Char → List (List Char)
  | [] => [[]]
  | x :: xs =>
    let r := splitOnChar c xs
    if x == c then [] :: r
    else
      match r with
      | [] => [[x]]
      | h :: t => (x :: h) :: t

def pathBasename (p : String) : String :=
  ⟨(((splitOnChar '/' p.toList).filter (fun c => !c.isEmpty)).getLastD [])⟩

/-- The `__name__` of the module `caller_resolver.py` (imported as
`utils.caller_resolver` by `logkit/filters.py`). -/
def caller_resolver_module_name : String := "utils.caller_resolver"

/-- The `__name__` of the legacy module `caller_resolver_bak.py`. -/
def caller_resolver_bak_module_name : String := "utils.caller_resolver_bak"

/-- The `__file__` of `caller_resolver.py`. -/
def caller_resolver_file : String := "utils/caller_resolver.py"

/-- The acceptance test of `resolve_caller_module`'s loop body:
`module_name and (not prefix_set or not any(module_name.startswith(prefix)
for prefix in prefix_set))`. -/
def moduleAccept (prefix_set : List String) (module_name : String) : Bool :=
  !(module_name == "") &&
    (prefix_set.isEmpty ||
      !(prefix_set.any (fun p => strStartsWith module_name p)))

/-- The `while frame and (max_stack_depth is None or inspected <
max_stack_depth)` loop of `resolve_caller_module`, over the post-skip
frames.  The `Option Nat` argument is the remaining inspection budget
(`max_stack_depth - inspected`); `none` means unlimited.  Reading
`frame.f_globals` on a faulting frame propagates the exception
(`.error ()`): the function installs no `except` clause. -/
def moduleTraverse (prefix_set : List String) :
    List FrameRead → Option Nat → Except Unit (Option String)
  | [], _ => .ok none
  | f :: rest, depth =>
    if depth = some 0 then .ok none
    else
      match f with
      | .fault => .error ()
      | .ok module_name =>
        if moduleAccept prefix_set module_name then .ok (some module_name)
        else moduleTraverse prefix_set rest (depth.map (fun n => n - 1))

/-- Embedding of `resolve_caller_module` of `caller_resolver.py`.  The skip phase
(`for _ in range(stack_start): ... frame = frame.f_back`) never reads a
frame attribute, so it is `List.drop`; running past the root during the
skip and exhausting the loop both return
`__name__ if fallback_to_current else MISSING`. -/
def resolve_caller_module (frames : List FrameRead) (stack_start : Nat)
    (max_stack_depth : Option Nat) (excluded_prefixes : List String)
    (fallback_to_current : Bool) : Except Unit (Option String) :=
  match moduleTraverse excluded_prefixes (frames.drop stack_start) max_stack_depth with
  | .error e => .error e
  | .ok (some m) => .ok (some m)
  | .ok none =>
      .ok (if fallback_to_current then some caller_resolver_module_name else none)

/-- The fixed, always-on environment-directory markers of
`resolve_caller_filename` (checked on the case-folded path). -/
def venvMarkers : List String := ["venv", ".venv", "virtualenv"]

/-- The exclusion test of `resolve_caller_filename`'s loop body: a path
is excluded if any configured pattern occurs in it, or (case-folded) it
contains one of the fixed environment-directory markers. -/
def fileExcluded (pattern_set : List String) (caller_path : String) : Bool :=
  pattern_set.any (fun pat => substrIn pat caller_path) ||
    venvMarkers.any (fun venv_pat => substrIn venv_pat (strLower caller_path))

/-- Outcome of the file-resolution traversal loop. -/
inductive FileScan where
  | found (path : String)
  | exhausted
  | faulted
deriving DecidableEq, Repr

/-- The traversal loop of `resolve_caller_filename`, over the post-skip
frames, carrying the `seen_files` set and the remaining inspection
budget.  A frame whose path was already seen is skipped without
re-evaluating exclusion, but still counts against the budget
(`inspected += 1` runs for every frame).  A faulting read of
`frame.f_code.co_filename` aborts the loop (`except Exception`). -/
def fileTraverse (pattern_set : List String) :
    List FrameRead → List String → Option Nat → FileScan
  | [], _, _ => .exhausted
  | f :: rest, seen, depth =>
    if depth = some 0 then .exhausted
    else
      match f with
      | .fault => .faulted
      | .ok caller_path =>
        if seen.contains caller_path then
          fileTraverse pattern_set rest seen (depth.map (fun n => n - 1))
        else
          if fileExcluded pattern_set caller_path then
            fileTraverse pattern_set rest (caller_path :: seen)
              (depth.map (fun n => n - 1))
          else .found caller_path

/-- Python `Path(p).name if return_basename else p`. -/
def renderPath (return_basename : Bool) (p : String) : String :=
  if return_basename then pathBasename p else p

/-- The fallback cascade of `resolve_caller_filename` (it appears
verbatim twice in the source: after the skip phase runs past the root,
and after the loop exits or faults). -/
def fileFallback (argv : List String) (return_basename fallback_to_argv
    fallback_to_current : Bool) : Option String :=
  if fallback_to_argv && !argv.isEmpty then
    some (renderPath return_basename (argv.headD ""))
  else if fallback_to_current then
    some (renderPath return_basename caller_resolver_file)
  else none

/-- Embedding of `resolve_caller_filename` of `caller_resolver.py`.  The three
non-`found` exits (skip phase past the root, loop exhaustion / depth
limit, traversal fault) all run the same fallback cascade. -/
def resolve_caller_filename (frames : List FrameRead) (argv : List String)
    (stack_start : Nat) (max_stack_depth : Option Nat)
    (pattern_set : List String)
    (return_basename fallback_to_argv fallback_to_current : Bool) :
    Option String :=
  match fileTraverse pattern_set (frames.drop stack_start) [] max_stack_depth with
  | .found p => some (renderPath return_basename p)
  | .exhausted => fileFallback argv return_basename fallback_to_argv fallback_to_current
  | .faulted => fileFallback argv return_basename fallback_to_argv fallback_to_current

/-- The default `excluded_patterns` set of `resolve_caller_filename`. -/
def default_patterns : List String :=
  [caller_resolver_file,
   "logging/__init__.py",
   "<frozen importlib._bootstrap>",
   "<frozen importlib._bootstrap_external>",
   "importlib/__init__.py",
   "site-packages",
   "<stdin>",
   "<string>",
   "<",
   "venv/",
   ".venv/",
   "virtualenv/"]

/-- The acceptance test of the legacy resolver `aaa`'s loop body:
`module_name and (not prefix_tuple or not
module_name.startswith(prefix_tuple))`, where `startswith` on a tuple
succeeds if any tuple element is a prefix. -/
def aaaAccept (prefix_tuple : List String) (module_name : String) : Bool :=
  !(module_name == "") &&
    (prefix_tuple.isEmpty ||
      !(prefix_tuple.any (fun p => strStartsWith module_name p)))

/-- The traversal loop of the legacy resolver `aaa`
(`caller_resolver_bak.py`), identical in structure to
`moduleTraverse`. -/
def aaaTraverse (prefix_tuple : List String) :
    List FrameRead → Option Nat → Except Unit (Option String)
  | [], _ => .ok none
  | f :: rest, depth =>
    if depth = some 0 then .ok none
    else
      match f with
      | .fault => .error ()
      | .ok module_name =>
        if aaaAccept prefix_tuple module_name then .ok (some module_name)
        else aaaTraverse prefix_tuple rest (depth.map (fun n => n - 1))

/-- The legacy module resolver `aaa` of `caller_resolver_bak.py`.  Its
current-context fallback value is its own module's `__name__`. -/
def aaa (frames : List FrameRead) (stack_start : Nat)
    (max_stack_depth : Option Nat) (excluded_prefixes : List String)
    (fallback_to_current : Bool) : Except Unit (Option String) :=
  match aaaTraverse excluded_prefixes (frames.drop stack_start) max_stack_depth with
  | .error e => .error e
  | .ok (some m) => .ok (some m)
  | .ok none =>
      .ok (if fallback_to_current then some caller_resolver_bak_module_name else none)

/-- A log record, modelled as its attribute map: attribute name ↦ value,
where a value is `some s` for a string and `none` for the `MISSING`
sentinel.  Lookup takes the first binding. -/
def getAttr (record : List (String × Option String)) (name : String) :
    Option (Option String) :=
  List.lookup name record

/-- Python `setattr(record, name, v)`: bind `name` to `v`, shadowing any
earlier binding. -/
def setAttr (record : List (String × Option String)) (name : String)
    (v : Option String) : List (String × Option String) :=
  (name, v) :: record

/-- Embedding of `CallerInfoFilter` of `logkit/filters.py` (the fields its `filter`
method reads). -/
structure CallerInfoFilter where
  attribute_name : String
  exclude_patterns : List String
  stack_offset : Nat
  fallback_to_argv : Bool

/-- Embedding of `CallerInfoFilter.filter`: resolve the caller filename with
`stack_start = 8 + self.stack_offset` (all other resolver arguments at
their defaults: no depth limit, basename output, current-context
fallback on), store the result on the record under
`self.attribute_name`, and return `True`. -/
def CallerInfoFilter.filter (flt : CallerInfoFilter)
    (frames : List FrameRead) (argv : List String)
    (record : List (String × Option String)) :
    Bool × List (String × Option String) :=
  let caller := resolve_caller_filename frames argv (8 + flt.stack_offset)
    none flt.exclude_patterns true flt.fallback_to_argv true
  (true, setAttr record flt.attribute_name caller)

/-- The acceptance test of `resolve_caller_filename`'s loop body, as a
predicate (a path is accepted iff it is not excluded). -/
def fileAccept (pattern_set : List String) (caller_path : String) : Bool :=
  !(fileExcluded pattern_set caller_path)

section HelperLemmas

/-- With no depth limit and no faults, the module traversal returns the
first accepted module of the chain. -/
theorem moduleTraverse_none_eq_find (ps : List String) (mods : List String) :
    moduleTraverse ps (mods.map FrameRead.ok) none =
      .ok (mods.find? (moduleAccept ps)) := by
  induction mods with
  | nil => rfl
  | cons m rest ih =>
    simp only [List.map_cons, moduleTraverse, List.find?]
    rw [if_neg (by simp)]
    by_cases h : moduleAccept ps m
    · simp [h]
    · simp only [Bool.not_eq_true] at h
      simp [h, ih]

/-- Only the first `d` frames matter to a module traversal with budget
`d`. -/
theorem moduleTraverse_take (ps : List String) :
    ∀ (frames : List FrameRead) (d : Nat),
    moduleTraverse ps frames (some d) = moduleTraverse ps (frames.take d) (some d) := by
  intro frames
  induction frames with
  | nil => intro d; simp
  | cons f rest ih =>
    intro d
    cases d with
    | zero => simp [moduleTraverse]
    | succ n =>
      simp only [List.take, moduleTraverse]
      rw [if_neg (by simp), if_neg (by simp)]
      cases f with
      | fault => rfl
      | ok m =>
        by_cases h : moduleAccept ps m
        · simp [h]
        · simp only [Bool.not_eq_true] at h
          simp [h, ih n]

/-- A path already in the seen set can never be the result of the file
traversal (its later occurrences are all skipped). -/
theorem fileTraverse_not_found_of_seen (ps : List String) (q : String) :
    ∀ (frames : List FrameRead) (seen : List String) (depth : Option Nat),
    q ∈ seen → fileTraverse ps frames seen depth ≠ FileScan.found q := by
  intro frames
  induction frames with
  | nil => intro seen depth _; simp [fileTraverse]
  | cons f rest ih =>
    intro seen depth hq
    simp only [fileTraverse]
    by_cases hd : depth = some 0
    · simp [hd]
    · rw [if_neg hd]
      cases f with
      | fault => simp
      | ok p =>
        dsimp only
        by_cases hp : p ∈ seen
        · rw [if_pos (List.elem_iff.mpr hp)]
          exact ih seen _ hq
        · rw [if_neg (fun hc => hp (List.elem_iff.mp hc))]
          by_cases he : fileExcluded ps p
          · simp only [he, if_true]
            exact ih (p :: seen) _ (List.mem_cons_of_mem p hq)
          · simp only [he, Bool.false_eq_true, if_false]
            intro hfound
            cases hfound
            exact hp hq

/-- With no depth limit and no faults, the file traversal returns the
first accepted path of the chain, provided everything already in the
seen set is a rejected path (true initially: the seen set is empty). -/
theorem fileTraverse_none_eq_find (ps : List String) :
    ∀ (paths : List String) (seen : List String),
    (∀ q ∈ seen, fileAccept ps q = false) →
    fileTraverse ps (paths.map FrameRead.ok) seen none =
      (match paths.find? (fileAccept ps) with
       | some p => FileScan.found p
       | none => FileScan.exhausted) := by
  intro paths
  induction paths with
  | nil => intro seen _; rfl
  | cons p rest ih =>
    intro seen hseen
    simp only [List.map_cons, fileTraverse, List.find?]
    rw [if_neg (by simp)]
    by_cases hp : p ∈ seen
    · have hacc : fileAccept ps p = false := hseen p hp
      rw [if_pos (List.elem_iff.mpr hp), hacc]
      simpa using ih seen hseen
    · rw [if_neg (fun hc => hp (List.elem_iff.mp hc))]
      by_cases he : fileExcluded ps p
      · have hacc : fileAccept ps p = false := by simp [fileAccept, he]
        have hseen' : ∀ q ∈ p :: seen, fileAccept ps q = false := by
          intro q hq
          rcases List.mem_cons.mp hq with h | h
          · rw [h]; exact hacc
          · exact hseen q h
        rw [if_pos he, hacc]
        simpa using ih (p :: seen) hseen'
      · have hacc : fileAccept ps p = true := by simp [fileAccept, he]
        rw [if_neg (fun hc => he hc), hacc]

/-- Only the first `d` frames matter to a file traversal with budget
`d`. -/
theorem fileTraverse_take (ps : List String) :
    ∀ (frames : List FrameRead) (seen : List String) (d : Nat),
    fileTraverse ps frames seen (some d) =
      fileTraverse ps (frames.take d) seen (some d) := by
  intro frames
  induction frames with
  | nil => intro seen d; simp
  | cons f rest ih =>
    intro seen d
    cases d with
    | zero => simp [fileTraverse]
    | succ n =>
      simp only [List.take, fileTraverse]
      rw [if_neg (by simp), if_neg (by simp)]
      cases f with
      | fault => rfl
      | ok p =>
        dsimp only
        by_cases hp : p ∈ seen
        · rw [if_pos (List.elem_iff.mpr hp), if_pos (List.elem_iff.mpr hp)]
          simpa using ih seen n
        · rw [if_neg (fun hc => hp (List.elem_iff.mp hc)),
            if_neg (fun hc => hp (List.elem_iff.mp hc))]
          by_cases he : fileExcluded ps p
          · rw [if_pos he, if_pos he]
            simpa using ih (p :: seen) n
          · rw [if_neg (fun hc => he hc), if_neg (fun hc => he hc)]

/-- The two acceptance tests are the same function. -/
theorem aaaAccept_eq_moduleAccept : aaaAccept = moduleAccept := rfl

/-- The legacy loop and the primary loop compute the same outcome. -/
theorem aaaTraverse_eq_moduleTraverse (ps : List String) :
    ∀ (frames : List FrameRead) (depth : Option Nat),
    aaaTraverse ps frames depth = moduleTraverse ps frames depth := by
  intro frames
  induction frames with
  | nil => intro depth; rfl
  | cons f rest ih =>
    intro depth
    simp only [aaaTraverse, moduleTraverse, aaaAccept_eq_moduleAccept]
    by_cases hd : depth = some 0
    · simp [hd]
    · rw [if_neg hd, if_neg hd]
      cases f with
      | fault => rfl
      | ok m =>
        by_cases h : moduleAccept ps m
        · simp [h]
        · simp only [Bool.not_eq_true] at h
          simp [h, ih]

/-- Looking up past a binding with a different key. -/
theorem lookup_setAttr_ne (record : List (String × Option String))
    (n name : String) (v : Option String) (h : name ≠ n) :
    getAttr (setAttr record n v) name = getAttr record name := by
  simp only [getAttr, setAttr, List.lookup]
  rw [show (name == n) = false from beq_eq_false_iff_ne.mpr h]

/-- Looking up at the key just written. -/
theorem lookup_setAttr_eq (record : List (String × Option String))
    (n : String) (v : Option String) :
    getAttr (setAttr record n v) n = some v := by
  simp [getAttr, setAttr, List.lookup]

end HelperLemmas

/-- The cascade `fileFallback` with the current-context fallback enabled always
produces a value. -/
theorem fileFallback_ne_none (argv : List String) (rb fa : Bool) :
    fileFallback argv rb fa true ≠ none := by
  unfold fileFallback
  by_cases h : fa && !argv.isEmpty
  · simp [h]
  · simp [h]

/-- If `fileFallback` yields `MISSING`, the current-context fallback was
disabled and the argv fallback was disabled or argv unavailable. -/
theorem fileFallback_eq_none_inv (argv : List String) (rb fa fc : Bool)
    (h : fileFallback argv rb fa fc = none) :
    fc = false ∧ (fa = false ∨ argv = []) := by
  unfold fileFallback at h
  by_cases h1 : (fa && !argv.isEmpty) = true
  · rw [if_pos h1] at h
    exact absurd h (by simp)
  · rw [if_neg h1] at h
    cases fc with
    | true => rw [if_pos rfl] at h; exact absurd h (by simp)
    | false =>
      refine ⟨rfl, ?_⟩
      cases fa with
      | false => exact Or.inl rfl
      | true =>
        cases argv with
        | nil => exact Or.inr rfl
        | cons a as => exact absurd (by simp) h1

/-- C1: a post-skip frame whose path is not yet in the seen set is the
accepted result of the file traversal if and only if no configured
pattern occurs in its path and the case-folded path contains none of the
fixed environment-directory markers; either check alone rejects, and the
marker check applies whatever the configured pattern set is. -/
theorem caller_filename_exclusion_characterization
    (ps : List String) (path : String) (rest : List FrameRead)
    (seen : List String) (depth : Option Nat)
    (hseen : path ∉ seen) (hdepth : depth ≠ some 0) :
    fileTraverse ps (FrameRead.ok path :: rest) seen depth = FileScan.found path ↔
      (ps.any (fun pat => substrIn pat path) ||
        venvMarkers.any (fun venv_pat => substrIn venv_pat (strLower path))) = false := by
  have hnotseen : ¬ (seen.contains path = true) :=
    fun hc => hseen (List.elem_iff.mp hc)
  constructor
  · intro hfound
    cases hb : fileExcluded ps path with
    | false => exact hb
    | true =>
      simp only [fileTraverse] at hfound
      rw [if_neg hdepth] at hfound
      rw [if_neg hnotseen, if_pos hb] at hfound
      exact absurd hfound
        (fileTraverse_not_found_of_seen ps path rest (path :: seen) _
          (List.mem_cons_self path seen))
  · intro hok
    have hexc : fileExcluded ps path = false := hok
    simp only [fileTraverse]
    rw [if_neg hdepth]
    rw [if_neg hnotseen, if_neg (by rw [hexc]; exact fun hc => Bool.false_ne_true hc)]

/-- Witness for C1: a concrete unseen frame failing both checks is
accepted. -/
theorem caller_filename_exclusion_characterization_witness :
    fileTraverse ["x"] [FrameRead.ok "/app/main.py"] [] none =
      FileScan.found "/app/main.py" :=
  (caller_filename_exclusion_characterization ["x"] "/app/main.py" [] [] none
    (by simp) (by simp)).mpr (by decide)

/-- C2: with no depth limit, module resolution returns the first
post-skip module identifier that is non-empty and starts with no
configured prefix; the prefix "foo" excludes both "foobar" and
"foo.bar"; on the chain ["pkg.internal", "pkg.sub", "app.main"] with
exclusion prefix set {"pkg."} the result is "app.main". -/
theorem caller_module_first_match :
    (∀ (mods : List String) (ss : Nat) (prefs : List String) (fc : Bool),
      resolve_caller_module (mods.map FrameRead.ok) ss none prefs fc =
        .ok (match (mods.drop ss).find? (moduleAccept prefs) with
             | some m => some m
             | none => if fc then some caller_resolver_module_name else none))
    ∧ moduleAccept ["foo"] "foobar" = false
    ∧ moduleAccept ["foo"] "foo.bar" = false
    ∧ resolve_caller_module
        [FrameRead.ok "pkg.internal", FrameRead.ok "pkg.sub", FrameRead.ok "app.main"]
        0 none ["pkg."] true = .ok (some "app.main") := by
  refine ⟨?_, by decide, by decide, by decide⟩
  intro mods ss prefs fc
  unfold resolve_caller_module
  rw [show (mods.map FrameRead.ok).drop ss = (mods.drop ss).map FrameRead.ok from
    (List.map_drop FrameRead.ok mods ss).symm]
  rw [moduleTraverse_none_eq_find]
  cases h : (mods.drop ss).find? (moduleAccept prefs) with
  | some m => rfl
  | none => rfl

/-- C3 counterexample: with an empty pattern set, the first post-skip
frame with a defined path is NOT always accepted — a path inside a
virtual-environment directory is still rejected by the always-on
environment-directory check, so acceptance is not unconditional. -/
theorem empty_exclusion_counterexample :
    resolve_caller_filename [FrameRead.ok "/home/user/venv/tool.py"] [] 0 none []
        false false false = none ∧
    resolve_caller_filename [FrameRead.ok "/home/user/venv/tool.py"] [] 0 none []
        false false false ≠ some "/home/user/venv/tool.py" := by
  refine ⟨by decide, ?_⟩
  intro h
  exact absurd h (by decide)

/-- C3 amended: with an empty exclusion set the module resolver accepts
the first post-skip frame with a non-empty module identifier, and the
file resolver accepts the first post-skip frame whose path survives the
always-on environment-directory check (no pattern exclusion applies). -/
theorem empty_exclusion_amended :
    (∀ (mods : List String),
      moduleTraverse [] (mods.map FrameRead.ok) none =
        .ok (mods.find? (fun m => !(m == ""))))
    ∧ (∀ (paths : List String),
      fileTraverse [] (paths.map FrameRead.ok) [] none =
        (match paths.find?
            (fun p => !(venvMarkers.any (fun v => substrIn v (strLower p)))) with
         | some p => FileScan.found p
         | none => FileScan.exhausted)) := by
  constructor
  · intro mods
    rw [moduleTraverse_none_eq_find]
    have : moduleAccept [] = fun m => !(m == "") := by
      funext m
      simp [moduleAccept]
    rw [this]
  · intro paths
    rw [fileTraverse_none_eq_find [] paths [] (by simp)]
    have : fileAccept [] = fun p => !(venvMarkers.any (fun v => substrIn v (strLower p))) := by
      funext p
      simp [fileAccept, fileExcluded]
    rw [this]

/-- C4: every non-accepting outcome of file resolution — skip count
exceeding the stack depth, stack exhaustion, depth limit — runs the same
short-circuiting fallback cascade: argv file name if enabled and
available, else the resolver's own file name if enabled, else MISSING. -/
theorem caller_filename_fallback_cascade :
    ∀ (frames : List FrameRead) (argv : List String) (ss : Nat) (md : Option Nat)
      (ps : List String) (rb fa fc : Bool),
    (fileFallback argv rb fa fc =
      (if fa && !argv.isEmpty then some (renderPath rb (argv.headD ""))
       else if fc then some (renderPath rb caller_resolver_file)
       else none))
    ∧ (frames.length ≤ ss →
        resolve_caller_filename frames argv ss md ps rb fa fc =
          fileFallback argv rb fa fc)
    ∧ ((∀ p, fileTraverse ps (frames.drop ss) [] md ≠ FileScan.found p) →
        resolve_caller_filename frames argv ss md ps rb fa fc =
          fileFallback argv rb fa fc) := by
  intro frames argv ss md ps rb fa fc
  refine ⟨rfl, ?_, ?_⟩
  · intro h
    unfold resolve_caller_filename
    rw [List.drop_eq_nil_of_le h]
    rfl
  · intro h
    unfold resolve_caller_filename
    cases hscan : fileTraverse ps (frames.drop ss) [] md with
    | found p => exact absurd hscan (h p)
    | exhausted => rfl
    | faulted => rfl

/-- Witness for C4: a skip count larger than the stack depth routes to
the fallback cascade, here yielding the argv file name. -/
theorem caller_filename_fallback_cascade_witness :
    resolve_caller_filename [FrameRead.ok "/x/a.py"] ["prog.py"] 5 none []
        true true true = fileFallback ["prog.py"] true true true ∧
    fileFallback ["prog.py"] true true true = some "prog.py" :=
  ⟨(caller_filename_fallback_cascade [FrameRead.ok "/x/a.py"] ["prog.py"] 5 none []
      true true true).2.1 (by decide),
   by decide⟩

/-- C5: a fault while reading a frame's path during file resolution is
caught and routed to the fallback cascade (the caller sees only a string
or MISSING), whereas the module resolver installs no such catch: a
faulting frame read makes it propagate an exception. -/
theorem traversal_fault_asymmetry :
    (∀ (frames : List FrameRead) (argv : List String) (md : Option Nat)
       (ps : List String) (rb fa fc : Bool),
      resolve_caller_filename (FrameRead.fault :: frames) argv 0 md ps rb fa fc =
        fileFallback argv rb fa fc)
    ∧ (∀ (frames : List FrameRead) (argv : List String) (ss : Nat) (md : Option Nat)
       (ps : List String) (rb fa fc : Bool),
      fileTraverse ps (frames.drop ss) [] md = FileScan.faulted →
        resolve_caller_filename frames argv ss md ps rb fa fc =
          fileFallback argv rb fa fc)
    ∧ resolve_caller_module [FrameRead.fault] 0 none [] true = .error () := by
  refine ⟨?_, ?_, by decide⟩
  · intro frames argv md ps rb fa fc
    unfold resolve_caller_filename
    rw [List.drop_zero]
    by_cases hd : md = some 0
    · subst hd; rfl
    · simp only [fileTraverse]
      rw [if_neg hd]
  · intro frames argv ss md ps rb fa fc h
    unfold resolve_caller_filename
    rw [h]

/-- Witness for C5: a fault hit mid-traversal (after an excluded frame)
is swallowed and the argv fallback is returned. -/
theorem traversal_fault_asymmetry_witness :
    resolve_caller_filename [FrameRead.ok "/s/site-packages/m.py", FrameRead.fault]
        ["app.py"] 0 none ["site-packages"] true true true =
      fileFallback ["app.py"] true true true ∧
    fileFallback ["app.py"] true true true = some "app.py" :=
  ⟨traversal_fault_asymmetry.2.1
      [FrameRead.ok "/s/site-packages/m.py", FrameRead.fault] ["app.py"] 0 none
      ["site-packages"] true true true (by decide),
   by decide⟩

/-- C6: the skip phase consumes frames before matching and independently
of the depth budget (both resolvers); with a depth limit `d` only the
first `d` post-skip frames are ever inspected; and with `maxDepth = 1` a
match at the second post-skip frame is not found — resolution falls
back. -/
theorem depth_limit_strictness :
    (∀ (frames : List FrameRead) (ss : Nat) (md : Option Nat) (ps : List String)
       (fc : Bool),
      resolve_caller_module frames ss md ps fc =
        resolve_caller_module (frames.drop ss) 0 md ps fc)
    ∧ (∀ (frames : List FrameRead) (argv : List String) (ss : Nat) (md : Option Nat)
        (ps : List String) (rb fa fc : Bool),
      resolve_caller_filename frames argv ss md ps rb fa fc =
        resolve_caller_filename (frames.drop ss) argv 0 md ps rb fa fc)
    ∧ (∀ (ps : List String) (frames : List FrameRead) (d : Nat),
      moduleTraverse ps frames (some d) = moduleTraverse ps (frames.take d) (some d))
    ∧ (∀ (ps : List String) (frames : List FrameRead) (seen : List String) (d : Nat),
      fileTraverse ps frames seen (some d) =
        fileTraverse ps (frames.take d) seen (some d))
    ∧ resolve_caller_module [FrameRead.ok "pkg.a", FrameRead.ok "app.main"] 0 (some 1)
        ["pkg."] false = .ok none := by
  refine ⟨?_, ?_, moduleTraverse_take, fileTraverse_take, by decide⟩
  · intro frames ss md ps fc
    unfold resolve_caller_module
    rw [List.drop_zero]
  · intro frames argv ss md ps rb fa fc
    unfold resolve_caller_filename
    rw [List.drop_zero]

/-- C7: the record-enrichment filter always allows the record, invokes
file resolution with skip count `8 + stack_offset` (defaults elsewhere),
stores the result — string or MISSING, unchanged — under the configured
attribute name, and leaves every other attribute unchanged. -/
theorem record_enrichment_adapter :
    ∀ (flt : CallerInfoFilter) (frames : List FrameRead) (argv : List String)
      (record : List (String × Option String)),
    ((flt.filter frames argv record).1 = true)
    ∧ ((flt.filter frames argv record).2 =
        setAttr record flt.attribute_name
          (resolve_caller_filename frames argv (8 + flt.stack_offset) none
            flt.exclude_patterns true flt.fallback_to_argv true))
    ∧ (getAttr (flt.filter frames argv record).2 flt.attribute_name =
        some (resolve_caller_filename frames argv (8 + flt.stack_offset) none
          flt.exclude_patterns true flt.fallback_to_argv true))
    ∧ (∀ attr, attr ≠ flt.attribute_name →
        getAttr (flt.filter frames argv record).2 attr = getAttr record attr) := by
  intro flt frames argv record
  refine ⟨rfl, rfl, lookup_setAttr_eq record flt.attribute_name _, ?_⟩
  intro attr h
  exact lookup_setAttr_ne record flt.attribute_name attr _ h

/-- Witness for C7: on a concrete record the filter reports allow and an
unrelated attribute is untouched. -/
theorem record_enrichment_adapter_witness :
    (CallerInfoFilter.filter ⟨"caller", [], 0, true⟩ [] ["main.py"]
        [("levelno", some "20")]).1 = true ∧
    getAttr (CallerInfoFilter.filter ⟨"caller", [], 0, true⟩ [] ["main.py"]
        [("levelno", some "20")]).2 "levelno" = some (some "20") := by
  refine ⟨(record_enrichment_adapter ⟨"caller", [], 0, true⟩ [] ["main.py"]
      [("levelno", some "20")]).1, ?_⟩
  rw [(record_enrichment_adapter ⟨"caller", [], 0, true⟩ [] ["main.py"]
      [("levelno", some "20")]).2.2.2 "levelno" (by decide)]
  decide

/-- C8: for identical inputs the legacy resolver `aaa` and
`resolve_caller_module` run the same traversal, accept the same module,
and fall back under exactly the same conditions, each substituting its
own module's name as the current-context fallback value. -/
theorem legacy_module_resolver_equivalence :
    ∀ (frames : List FrameRead) (ss : Nat) (md : Option Nat) (ps : List String)
      (fc : Bool),
    (aaaTraverse ps (frames.drop ss) md = moduleTraverse ps (frames.drop ss) md)
    ∧ (aaa frames ss md ps fc = resolve_caller_module frames ss md ps fc
       ∨ (moduleTraverse ps (frames.drop ss) md = .ok none ∧ fc = true
          ∧ aaa frames ss md ps fc = .ok (some caller_resolver_bak_module_name)
          ∧ resolve_caller_module frames ss md ps fc =
              .ok (some caller_resolver_module_name))) := by
  intro frames ss md ps fc
  have ht := aaaTraverse_eq_moduleTraverse ps (frames.drop ss) md
  refine ⟨ht, ?_⟩
  unfold aaa resolve_caller_module
  rw [ht]
  cases hm : moduleTraverse ps (frames.drop ss) md with
  | error e => exact Or.inl rfl
  | ok o =>
    cases o with
    | some m => exact Or.inl rfl
    | none =>
      cases fc with
      | false => exact Or.inl rfl
      | true => exact Or.inr ⟨rfl, rfl, rfl, rfl⟩

/-- C9: a post-skip frame whose path is already in the seen set is
skipped without re-running exclusion yet still consumes one unit of
depth budget; hence duplicates can exhaust `max_stack_depth` and hide a
match lying just past them, while a larger budget finds it. -/
theorem seen_duplicate_consumes_budget :
    (∀ (ps : List String) (p : String) (rest : List FrameRead) (seen : List String)
       (depth : Option Nat), p ∈ seen → depth ≠ some 0 →
      fileTraverse ps (FrameRead.ok p :: rest) seen depth =
        fileTraverse ps rest seen (depth.map (fun n => n - 1)))
    ∧ fileTraverse ["a.py"] [FrameRead.ok "a.py", FrameRead.ok "a.py", FrameRead.ok "b.py"]
        [] (some 2) = FileScan.exhausted
    ∧ fileTraverse ["a.py"] [FrameRead.ok "a.py", FrameRead.ok "a.py", FrameRead.ok "b.py"]
        [] (some 3) = FileScan.found "b.py" := by
  refine ⟨?_, by decide, by decide⟩
  intro ps p rest seen depth hp hd
  simp only [fileTraverse]
  rw [if_neg hd]
  rw [if_pos (List.elem_iff.mpr hp)]

/-- Witness for C9: a concrete seen duplicate is skipped but spends the
budget. -/
theorem seen_duplicate_consumes_budget_witness :
    fileTraverse [] [FrameRead.ok "x"] ["x"] (some 2) = FileScan.exhausted := by
  rw [seen_duplicate_consumes_budget.1 [] "x" [] ["x"] (some 2) (by decide) (by decide)]
  decide

/-- C10: with the current-context fallback enabled (its default, and
what the enrichment adapter always uses) neither resolver ever returns
MISSING; MISSING requires that fallback disabled and, for the file
resolver, the argv fallback disabled or argv unavailable. -/
theorem missing_only_without_current_fallback :
    (∀ (frames : List FrameRead) (ss : Nat) (md : Option Nat) (ps : List String),
      resolve_caller_module frames ss md ps true ≠ .ok none)
    ∧ (∀ (frames : List FrameRead) (argv : List String) (ss : Nat) (md : Option Nat)
        (ps : List String) (rb fa : Bool),
      resolve_caller_filename frames argv ss md ps rb fa true ≠ none)
    ∧ (∀ (frames : List FrameRead) (ss : Nat) (md : Option Nat) (ps : List String)
        (fc : Bool),
      resolve_caller_module frames ss md ps fc = .ok none → fc = false)
    ∧ (∀ (frames : List FrameRead) (argv : List String) (ss : Nat) (md : Option Nat)
        (ps : List String) (rb fa fc : Bool),
      resolve_caller_filename frames argv ss md ps rb fa fc = none →
        fc = false ∧ (fa = false ∨ argv = []))
    ∧ (∀ (flt : CallerInfoFilter) (frames : List FrameRead) (argv : List String)
        (record : List (String × Option String)),
      getAttr ((flt.filter) frames argv record).2 flt.attribute_name ≠ some none) := by
  have hfile : ∀ (frames : List FrameRead) (argv : List String) (ss : Nat)
      (md : Option Nat) (ps : List String) (rb fa : Bool),
      resolve_caller_filename frames argv ss md ps rb fa true ≠ none := by
    intro frames argv ss md ps rb fa
    unfold resolve_caller_filename
    cases fileTraverse ps (frames.drop ss) [] md with
    | found p => simp
    | exhausted => exact fileFallback_ne_none argv rb fa
    | faulted => exact fileFallback_ne_none argv rb fa
  refine ⟨?_, hfile, ?_, ?_, ?_⟩
  · intro frames ss md ps
    unfold resolve_caller_module
    cases moduleTraverse ps (frames.drop ss) md with
    | error e => simp
    | ok o =>
      cases o with
      | some m => simp
      | none => simp [caller_resolver_module_name]
  · intro frames ss md ps fc h
    unfold resolve_caller_module at h
    split at h
    · exact absurd h (by simp)
    · exact absurd h (by simp)
    · cases fc with
      | false => rfl
      | true => exact absurd h (by simp [caller_resolver_module_name])
  · intro frames argv ss md ps rb fa fc h
    unfold resolve_caller_filename at h
    split at h
    · exact absurd h (by simp)
    · exact fileFallback_eq_none_inv argv rb fa fc h
    · exact fileFallback_eq_none_inv argv rb fa fc h
  · intro flt frames argv record h
    simp only [CallerInfoFilter.filter, lookup_setAttr_eq, Option.some.injEq] at h
    exact hfile frames argv (8 + flt.stack_offset) none flt.exclude_patterns true
      flt.fallback_to_argv h

/-- Witness for C10: concrete inputs where MISSING is returned satisfy
the reachability conditions. -/
theorem missing_only_without_current_fallback_witness :
    false = false ∧ (true = false ∨ ([] : List String) = []) :=
  missing_only_without_current_fallback.2.2.2.1 [] [] 0 none [] true true false
    (by decide)

-- Concrete evaluations of the embedded operations.
example : substrIn "venv" (strLower "/home/USER/Venv/tool.py") = true := by decide
example : substrIn "site-packages" "/a/b.py" = false := by decide
example : strStartsWith "foobar" "foo" = true := by decide
example : strStartsWith "foo.bar" "foo" = true := by decide
example : strStartsWith "fo" "foo" = false := by decide
example : pathBasename "/home/user/main.py" = "main.py" := by decide
example : pathBasename "prog.py" = "prog.py" := by decide
example : pathBasename "" = "" := by decide
example :
    resolve_caller_module
      [FrameRead.ok "pkg.internal", FrameRead.ok "pkg.sub", FrameRead.ok "app.main"]
      0 none ["pkg."] true = .ok (some "app.main") := by decide
example :
    resolve_caller_filename [FrameRead.ok "/home/user/venv/tool.py"] [] 0 none []
      false false false = none := by decide
example :
    resolve_caller_filename
      [FrameRead.ok "/x/site-packages/a.py", FrameRead.ok "/x/main.py"]
      ["prog.py"] 0 none ["site-packages"] true true true = some "main.py" := by
  decide
example :
    resolve_caller_module [FrameRead.fault] 0 none [] true = .error () := by decide
example :
    fileTraverse ["a.py"] [FrameRead.ok "a.py", FrameRead.ok "a.py", FrameRead.ok "b.py"]
      [] (some 2) = FileScan.exhausted := by decide
example :
    fileTraverse ["a.py"] [FrameRead.ok "a.py", FrameRead.ok "a.py", FrameRead.ok "b.py"]
      [] (some 3) = FileScan.found "b.py" := by decide
